import Mathlib

set_option linter.unusedVariables false

/-!
Verification development for the openvisualizer core
(src/openvisualizer/motehandler/moteprobe/moteprobe.py and
src/openvisualizer/main.py).

The definitions below are shallow embeddings of the Python source:
the per-byte HDLC frame-assembly loop of `MoteProbe.run`, the in-band
flow-control absorption of `MoteProbe._add_to_input_buf`, the send path
`MoteProbe._send_data`, the RPC command `OpenVisualizerServer.boot_motes`,
the serial-port scan `find_serial_ports`, the testbed inbound queue
callback `MoteProbe._on_mqtt_message`, and the mode dispatch of
`MoteProbe.__init__`.
-/

/-- Software flow-control XOFF byte, `MoteProbe.XOFF` (moteprobe.py line 174). -/
def XOFF : Nat := 0x13

/-- Software flow-control XON byte, `MoteProbe.XON` (moteprobe.py line 175). -/
def XON : Nat := 0x11

/-- In-band escape byte, `MoteProbe.XONXOFF_ESCAPE` (moteprobe.py line 176). -/
def XONXOFF_ESCAPE : Nat := 0x12

/-- XOR mask applied to an escaped byte, `MoteProbe.XONXOFF_MASK` (moteprobe.py line 177). -/
def XONXOFF_MASK : Nat := 0x10

/-- Modelled from the spec: the frame codec module (`openhdlc.OpenHdlc`) is not
under src/, only its callers are.  Spec section 6 specifies a single reserved flag
byte delimiting each frame; 0x7e is the flag byte of the standard HDLC-style
asynchronous framing scheme the spec mandates (section 9). -/
def HDLC_FLAG : Nat := 0x7e

/-- Modelled from the spec: the byte-stuffing escape byte of the standard
HDLC-style asynchronous framing scheme (spec sections 6 and 9). -/
def HDLC_ESCAPE : Nat := 0x7d

/-- Modelled from the spec: the XOR mask of standard HDLC byte-stuffing. -/
def HDLC_ESCAPE_MASK : Nat := 0x20

/-- Modelled from the spec: byte-stuffing of a single payload byte, such that the
flag value and the escape value never appear unescaped inside the payload region
(spec section 6). -/
def stuffByte (b : Nat) : List Nat :=
  if b = HDLC_FLAG ∨ b = HDLC_ESCAPE then [HDLC_ESCAPE, b ^^^ HDLC_ESCAPE_MASK] else [b]

/-- Modelled from the spec: `encode(payload) -> wireBytes` prefixes and suffixes
the reserved flag byte and applies byte-stuffing (spec section 6).  Stands in for
`OpenHdlc.hdlcify`, which is not under src/. -/
def hdlcify (p : List Nat) : List Nat :=
  HDLC_FLAG :: ((p.map stuffByte).flatten ++ [HDLC_FLAG])

/-- Modelled from the spec: inverse of the byte-stuffing of the payload region;
fails on any byte sequence that is not validly stuffed (a bare flag, a dangling
escape, or an escape followed by a byte that is not a stuffed flag or escape). -/
def unstuff : List Nat → Option (List Nat)
  | [] => some []
  | b :: rest =>
    if b = HDLC_ESCAPE then
      match rest with
      | [] => none
      | c :: rest2 =>
        if c = HDLC_FLAG ^^^ HDLC_ESCAPE_MASK then (unstuff rest2).map (fun t => HDLC_FLAG :: t)
        else if c = HDLC_ESCAPE ^^^ HDLC_ESCAPE_MASK then
          (unstuff rest2).map (fun t => HDLC_ESCAPE :: t)
        else none
    else if b = HDLC_FLAG then none
    else (unstuff rest).map (fun t => b :: t)

/-- Modelled from the spec: `decode(wireBytes) -> payload` is the exact inverse of
`hdlcify` and fails with a decode fault on any byte sequence that is not validly
stuffed (spec section 6).  Stands in for `OpenHdlc.dehdlcify`, which is not under
src/; `none` models the `HdlcException` raised there. -/
def dehdlcify (w : List Nat) : Option (List Nat) :=
  match w with
  | [] => none
  | f :: rest =>
    if f = HDLC_FLAG ∧ rest ≠ [] ∧ rest.getLast? = some HDLC_FLAG then unstuff rest.dropLast
    else none

/-- Per-probe mutable receive state of `MoteProbe` (moteprobe.py lines 241-243 and
330): the `is_receiving` phase, the previously observed byte `last_rx_byte`, the
accumulating buffer `input_buf`, and the flow-control escape flag
`xonxoff_escaping`. -/
structure RxState where
  is_receiving : Bool
  last_rx_byte : Nat
  input_buf : List Nat
  xonxoff_escaping : Bool
deriving DecidableEq, Repr

/-- Embedding of `MoteProbe._add_to_input_buf` (moteprobe.py lines 389-397): the
escape byte only arms the escape flag and is never appended; an escaped byte is
appended XORed with the mask and disarms the flag; XON and XOFF are discarded
when not escaped; every other byte is appended unchanged. -/
def add_to_input_buf (s : RxState) (b : Nat) : RxState :=
  if b = XONXOFF_ESCAPE then { s with xonxoff_escaping := true }
  else if s.xonxoff_escaping = true then
    { s with input_buf := s.input_buf ++ [b ^^^ XONXOFF_MASK], xonxoff_escaping := false }
  else if b ≠ XON ∧ b ≠ XOFF then { s with input_buf := s.input_buf ++ [b] }
  else s

/-- The action of `_add_to_input_buf` on the pair (buffer, escape flag) alone,
used to state what a processed chunk leaves in the buffer. -/
def absorbStep : List Nat × Bool → Nat → List Nat × Bool
  | (buf, esc), b =>
    if b = XONXOFF_ESCAPE then (buf, true)
    else if esc = true then (buf ++ [b ^^^ XONXOFF_MASK], false)
    else if b ≠ XON ∧ b ≠ XOFF then (buf ++ [b], esc)
    else (buf, esc)

/-- Per-byte emission semantics of the flow-control absorption: given the current
escape flag and the incoming byte, the byte appended to the buffer (if any) and
the new escape flag.  This is the declarative form of the absorption rules of
spec section 4.1. -/
def absorbEmit (esc : Bool) (b : Nat) : Option Nat × Bool :=
  if b = XONXOFF_ESCAPE then (none, true)
  else if esc = true then (some (b ^^^ XONXOFF_MASK), false)
  else if b = XON ∨ b = XOFF then (none, false)
  else (some b, false)

/-- Embedding of one iteration of the per-byte for-loop of `MoteProbe.run`
(moteprobe.py lines 319-360).  The returned `Option (List Nat)` is the decoded
frame handed to `send_to_parser` for this byte (`none` when no frame completes or
when `dehdlcify` faults, in which case the frame is logged and discarded; the
probe is modelled with a parser attached, as wired by the mote connector).
On a successful decode the code stores the decoded payload back into
`input_buf`; on a decode fault `input_buf` keeps the raw frame bytes.
`last_rx_byte` is updated unconditionally at the end of the iteration
(line 360). -/
def processByte (s : RxState) (b : Nat) : RxState × Option (List Nat) :=
  let step :=
    if s.is_receiving = false ∧ s.last_rx_byte = HDLC_FLAG ∧ b ≠ HDLC_FLAG then
      (add_to_input_buf
        { s with is_receiving := true, xonxoff_escaping := false, input_buf := [HDLC_FLAG] } b,
       none)
    else if s.is_receiving = true ∧ b ≠ HDLC_FLAG then
      (add_to_input_buf s b, none)
    else if s.is_receiving = true ∧ b = HDLC_FLAG then
      let s1 := add_to_input_buf { s with is_receiving := false } b
      match dehdlcify s1.input_buf with
      | some payload => ({ s1 with input_buf := payload }, some payload)
      | none => (s1, none)
    else (s, none)
  ({ step.1 with last_rx_byte := b }, step.2)

/-- Folding `processByte` over a byte stream, collecting the decoded frames
delivered to the parser, in order. -/
def processStream (s : RxState) : List Nat → RxState × List (List Nat)
  | [] => (s, [])
  | b :: rest =>
    let p := processByte s b
    let q := processStream p.1 rest
    (q.1, p.2.toList ++ q.2)

/-- The receive state right after `MoteProbe.__init__` (moteprobe.py lines
241-243): not receiving, previous byte primed to the flag, empty buffer, and
(first set at the first start of frame, line 330) escape flag clear. -/
def initState : RxState :=
  { is_receiving := false, last_rx_byte := HDLC_FLAG, input_buf := [], xonxoff_escaping := false }

/-- One wire frame as the acquisition loop reads it: a flag byte, a flag-free
body, and the terminating flag byte. -/
def wire (body : List Nat) : List Nat :=
  HDLC_FLAG :: (body ++ [HDLC_FLAG])

/-- The buffer contents at the end-of-frame decode attempt for a frame whose
flag-free body is `body`: the loop resets the buffer to the flag byte at start of
frame and then routes the body bytes and the terminating flag through
`_add_to_input_buf`. -/
def assembledFrame (body : List Nat) : List Nat :=
  (List.foldl absorbStep ([HDLC_FLAG], false) (body ++ [HDLC_FLAG])).1

/-- Receive state of the pipeline described by the spec's words for claim C3
(spec section 4.1, flow-control absorption paragraph), kept separate from the
code's `RxState` so the two pipelines can be compared. -/
structure SpecRxState where
  is_receiving : Bool
  last_rx_byte : Nat
  input_buf : List Nat
  esc_pending : Bool
deriving DecidableEq, Repr

/-- Follows the spec's words (claim C3): the frame-assembly rules 1-4 of spec
section 4.1 applied to a byte that has already passed through flow-control
absorption, so the machine appends the byte directly. -/
def specMachineByte (s : SpecRxState) (c : Nat) : SpecRxState × Option (List Nat) :=
  if s.is_receiving = false ∧ s.last_rx_byte = HDLC_FLAG ∧ c ≠ HDLC_FLAG then
    ({ s with is_receiving := true, input_buf := [HDLC_FLAG, c] }, none)
  else if s.is_receiving = true ∧ c ≠ HDLC_FLAG then
    ({ s with input_buf := s.input_buf ++ [c] }, none)
  else if s.is_receiving = true ∧ c = HDLC_FLAG then
    match dehdlcify (s.input_buf ++ [HDLC_FLAG]) with
    | some payload => ({ s with is_receiving := false, input_buf := payload }, some payload)
    | none => ({ s with is_receiving := false, input_buf := s.input_buf ++ [HDLC_FLAG] }, none)
  else (s, none)

/-- Follows the spec's words (claim C3): flow-control byte absorption is applied
to each incoming byte before the frame-assembly state machine sees it, and the
previous byte is updated to the raw consumed byte unconditionally, including for
control bytes absorbed by escape handling (spec section 4.1, rule 5). -/
def specProcessByte (s : SpecRxState) (b : Nat) : SpecRxState × Option (List Nat) :=
  let a := absorbEmit s.esc_pending b
  let step :=
    match a.1 with
    | none => (s, none)
    | some c => specMachineByte s c
  ({ step.1 with esc_pending := a.2, last_rx_byte := b }, step.2)

/-- Folding the spec-side pipeline over a byte stream. -/
def specProcessStream (s : SpecRxState) : List Nat → SpecRxState × List (List Nat)
  | [] => (s, [])
  | b :: rest =>
    let p := specProcessByte s b
    let q := specProcessStream p.1 rest
    (q.1, p.2.toList ++ q.2)

/-- Initial state of the spec-side pipeline, mirroring `initState`. -/
def specInitState : SpecRxState :=
  { is_receiving := false, last_rx_byte := HDLC_FLAG, input_buf := [], esc_pending := false }

/-- Transport modes of `MoteProbe.MoteModes` (moteprobe.py lines 168-172). -/
inductive MoteModes
  | MODE_SERIAL
  | MODE_EMULATED
  | MODE_IOTLAB
  | MODE_TESTBED
deriving DecidableEq, Repr

/-- Outcome of the parameter check in `MoteProbe.__init__` (moteprobe.py lines
192-213): either a transport mode is bound, or `SystemError` is raised when no
transport argument is given, or an `assert` fails when a second transport
argument is also given. -/
inductive InitOutcome
  | bound (m : MoteModes)
  | systemError
  | assertionError
deriving DecidableEq, Repr

/-- Embedding of the transport-argument dispatch of `MoteProbe.__init__`
(moteprobe.py lines 192-213).  Each Bool is the truthiness of the corresponding
keyword argument (`serial_port`, `emulated_mote`, `iotlab_mote`,
`testbedmote_eui64`).  The chain tests the arguments in that order; each taken
branch asserts that the other three arguments are absent (the assertion on the
arguments already known falsy by the elif chain is vacuous). -/
def moteprobe_init_mode (serial_port emulated_mote iotlab_mote testbedmote_eui64 : Bool) :
    InitOutcome :=
  if serial_port then
    if emulated_mote then InitOutcome.assertionError
    else if iotlab_mote then InitOutcome.assertionError
    else if testbedmote_eui64 then InitOutcome.assertionError
    else InitOutcome.bound MoteModes.MODE_SERIAL
  else if emulated_mote then
    if iotlab_mote then InitOutcome.assertionError
    else if testbedmote_eui64 then InitOutcome.assertionError
    else InitOutcome.bound MoteModes.MODE_EMULATED
  else if iotlab_mote then
    if testbedmote_eui64 then InitOutcome.assertionError
    else InitOutcome.bound MoteModes.MODE_IOTLAB
  else if testbedmote_eui64 then InitOutcome.bound MoteModes.MODE_TESTBED
  else InitOutcome.systemError

/-- Number of transport arguments provided to `MoteProbe.__init__`. -/
def numProvided (serial_port emulated_mote iotlab_mote testbedmote_eui64 : Bool) : Nat :=
  (cond serial_port 1 0) + (cond emulated_mote 1 0) + (cond iotlab_mote 1 0) +
    (cond testbedmote_eui64 1 0)

/-- Observable actions of `MoteProbe._send_data` (moteprobe.py lines 399-424). -/
inductive SendEffect
  | mqttPublish (topic : String) (token : Nat) (serialbytes : List Nat)
  | serialFlush
  | serialWrite (data : List Nat)
deriving DecidableEq, Repr

/-- Embedding of the retry loop of `MoteProbe._send_data` (moteprobe.py lines
418-424): `while bytes_written != len(bytearray(hdlc_data)): bytes_written +=
self.serial.write(hdlc_data)`.  `oracle` lists the return values of successive
`serial.write` calls; each loop iteration writes the whole `data` again and adds
the returned count.  The result is `none` when the loop has not exited after
consuming the whole oracle (the call has not completed), otherwise the emitted
write effects and the final `bytes_written`. -/
def writeLoop (data : List Nat) : Nat → List Nat → Option (List SendEffect × Nat)
  | w, [] => if w = data.length then some ([], w) else none
  | w, r :: rest =>
    if w = data.length then some ([], w)
    else
      match writeLoop data (w + r) rest with
      | some (effs, w2) => some (SendEffect.serialWrite data :: effs, w2)
      | none => none

/-- Embedding of `MoteProbe._send_data` (moteprobe.py lines 399-424) as the list
of transport actions it performs for one outbound payload, together with the
final `bytes_written` counter.  For `MODE_IOTLAB` the method returns immediately
(lines 402-403).  Otherwise the payload is HDLC-encoded; `MODE_TESTBED`
publishes a JSON object with token 123 and the encoded bytes to the per-mote
command topic (lines 408-415); the serial and emulated modes run the write-retry
loop, with `MODE_SERIAL` flushing pending output once before it (lines
417-424). `none` models a call that never completes. -/
def send_data (mode : MoteModes) (eui64 : String) (data : List Nat) (oracle : List Nat) :
    Option (List SendEffect × Nat) :=
  match mode with
  | MoteModes.MODE_IOTLAB => some ([], 0)
  | MoteModes.MODE_TESTBED =>
    some ([SendEffect.mqttPublish
            ("opentestbed/deviceType/mote/deviceId/" ++ eui64 ++ "/cmd/tomoteserialbytes")
            123 (hdlcify data)], 0)
  | MoteModes.MODE_SERIAL =>
    match writeLoop (hdlcify data) 0 oracle with
    | some (effs, w) => some (SendEffect.serialFlush :: effs, w)
    | none => none
  | MoteModes.MODE_EMULATED =>
    match writeLoop (hdlcify data) 0 oracle with
    | some (effs, w) => some (effs, w)
    | none => none

/-- An emulated mote as `boot_motes` observes it: `mh.get_id()` and
`mh.hw_supply.mote_on` (main.py lines 352-372). -/
structure SimMote where
  id : Nat
  mote_on : Bool
deriving DecidableEq, Repr

/-- An element of the `addresses` argument of `boot_motes`: the literal string
"all", a string parsing as an integer, or a string `int()` rejects. -/
inductive RpcAddr
  | allLit
  | num (n : Nat)
  | malformed
deriving DecidableEq, Repr

/-- Observable simulation-engine actions of `boot_motes` (main.py lines
347-374): pausing the clock, scheduling a power-on event for a mote at the
current time, and resuming the clock. -/
inductive BootEffect
  | pause
  | schedule (moteId : Nat)
  | resume
deriving DecidableEq, Repr

/-- The "all" branch of `boot_motes` (main.py lines 350-357): walk the motes in
rank order, scheduling a power-on for each unpowered one; hitting an
already-powered mote raises `Fault "Mote already booted."` immediately,
abandoning the rest of the walk.  Returns the effects performed and the fault
message, if any. -/
def bootAll : List SimMote → List BootEffect × Option String
  | [] => ([], none)
  | m :: rest =>
    if m.mote_on = false then
      let r := bootAll rest
      (BootEffect.schedule m.id :: r.1, r.2)
    else ([], some "Mote already booted.")

/-- The inner loop of the address branch of `boot_motes` (main.py lines
365-372) for one parsed address `n`: walk all motes (the loop has no break, so
it continues past a match), scheduling a power-on for a matching unpowered mote
and faulting on a matching powered one.  A mote list containing no match is
walked to the end with no effect and no fault. -/
def bootAddr (n : Nat) : List SimMote → List BootEffect × Option String
  | [] => ([], none)
  | m :: rest =>
    if n = m.id then
      if m.mote_on = false then
        let r := bootAddr n rest
        (BootEffect.schedule m.id :: r.1, r.2)
      else ([], some "Mote already booted.")
    else bootAddr n rest

/-- The address branch of `boot_motes` (main.py lines 359-372): each address is
parsed with `int()`, a parse failure raising `Fault "Invalid mote address"`
(the formatted address text is omitted from the modelled message); a parsed
address is looked up with `bootAddr`. -/
def bootAddrs (motes : List SimMote) : List RpcAddr → List BootEffect × Option String
  | [] => ([], none)
  | a :: rest =>
    match a with
    | RpcAddr.num n =>
      let r := bootAddr n motes
      match r.2 with
      | some msg => (r.1, some msg)
      | none =>
        let r2 := bootAddrs motes rest
        (r.1 ++ r2.1, r2.2)
    | _ => ([], some "Invalid mote address")

/-- Embedding of `OpenVisualizerServer.boot_motes` (main.py lines 343-377).
Outside simulated mode it raises `Fault "Method not supported on real
hardware"` at once.  In simulated mode it pauses the simulation clock, runs the
"all" walk when `addresses == ["all"]` and the per-address walk otherwise, and
resumes the clock and returns True only when no fault was raised: a raised
`Fault` propagates out before the `resume()` call (there is no try/finally
around lines 348-374). -/
def boot_motes (simulator_mode : Bool) (motes : List SimMote) (addrs : List RpcAddr) :
    List BootEffect × Except String Bool :=
  if simulator_mode then
    let r :=
      if addrs.length = 1 ∧ addrs.head? = some RpcAddr.allLit then bootAll motes
      else bootAddrs motes addrs
    match r.2 with
    | some msg => (BootEffect.pause :: r.1, Except.error msg)
    | none => (BootEffect.pause :: (r.1 ++ [BootEffect.resume]), Except.ok true)
  else ([], Except.error "Method not supported on real hardware")

/-- Capacity of the testbed-mode inbound queue, `Queue.Queue(maxsize=10)`
(moteprobe.py line 254). -/
def serialbytes_queue_maxsize : Nat := 10

/-- Non-blocking put of `Queue.put(item, block=False)`: `none` models the
`Queue.Full` exception raised when the queue already holds `cap` items. -/
def queue_put_nowait (cap : Nat) (q : List (List Nat)) (item : List Nat) :
    Option (List (List Nat)) :=
  if q.length < cap then some (q ++ [item]) else none

/-- Embedding of `MoteProbe._on_mqtt_message` (moteprobe.py lines 432-442).
`msg` is the parsed `serialbytes` field of the JSON payload, `none` when parsing
fails (the bare except at line 436 logs an error).  The item is enqueued with a
non-blocking put; a full queue raises `Queue.Full`, which the bare except at
line 441 swallows after logging "queue overflow".  The callback is a total
function: it always returns, with the queue unchanged on either failure. -/
def on_mqtt_message (q : List (List Nat)) (msg : Option (List Nat)) :
    List (List Nat) × Option String :=
  match msg with
  | none => (q, some "failed to parse message payload")
  | some sb =>
    match queue_put_nowait serialbytes_queue_maxsize q sb with
    | some q2 => (q2, none)
    | none => (q, some "queue overflow")

/-- One candidate port of the serial scan, as an oracle for its transport
behaviour: whether `serial.Serial(port, 115200, ...)` (moteprobe.py line 286)
succeeds on the probe thread, and which baud rates pass the one-packet echo
test.  The echo tester (`SerialTester`) is not under src/ and is modelled from
the spec (section 4.2): accept at the first baud rate achieving at least one
successful round trip. -/
structure PortOracle where
  name : String
  open_ok : Bool
  echo_ok : Nat → Bool

/-- The baud-rate loop of `find_serial_ports` (moteprobe.py lines 91-100):
first baud rate whose echo test reports at least one success, paired with the
port name; `none` when no baud rate echoes. -/
def probe_port_bauds (p : PortOracle) : List Nat → Option (String × Nat)
  | [] => none
  | baud :: rest => if p.echo_ok baud then some (p.name, baud) else probe_port_bauds p rest

/-- Embedding of the per-port loop of `find_serial_ports` (moteprobe.py lines
86-107).  `serial.Serial(...)` runs on the probe thread (`MoteProbe.run`, line
286); when it raises, the thread's handler logs and exits the thread without
ever setting the `serial` attribute, so the scanning thread's busy-wait `while
not hasattr(probe, 'serial'): pass` (lines 89-90) never terminates — modelled as
`none` for the whole scan.  When the open succeeds, the port contributes its
first echoing baud rate (if any) and the `finally` clause releases the transient
probe; the result collects the accepted (port, baud) pairs and the ports whose
probe was released. -/
def find_serial_ports_scan (baudrate : List Nat) :
    List PortOracle → Option (List (String × Nat) × List String)
  | [] => some ([], [])
  | p :: rest =>
    if p.open_ok then
      match find_serial_ports_scan baudrate rest with
      | some (acc, rel) =>
        some ((match probe_port_bauds p baudrate with
               | some pr => pr :: acc
               | none => acc), p.name :: rel)
      | none => none
    else none
/-- Bridge between the stateful `add_to_input_buf` and its (buffer, flag) action. -/
theorem add_to_input_buf_eq (s : RxState) (b : Nat) :
    add_to_input_buf s b =
      { s with input_buf := (absorbStep (s.input_buf, s.xonxoff_escaping) b).1,
               xonxoff_escaping := (absorbStep (s.input_buf, s.xonxoff_escaping) b).2 } := by
  cases s with
  | mk r l buf esc =>
    simp only [add_to_input_buf, absorbStep]
    split_ifs <;> rfl

/-- Processing a stream splits along list concatenation. -/
theorem processStream_append (s : RxState) (xs ys : List Nat) :
    processStream s (xs ++ ys) =
      ((processStream (processStream s xs).1 ys).1,
       (processStream s xs).2 ++ (processStream (processStream s xs).1 ys).2) := by
  induction xs generalizing s with
  | nil => simp [processStream]
  | cons b rest ih => simp [processStream, ih]

/-- A flag byte arriving while idle right after a flag byte is a no-op. -/
theorem processByte_flag_noop (s : RxState) (hr : s.is_receiving = false)
    (hl : s.last_rx_byte = HDLC_FLAG) :
    processByte s HDLC_FLAG = (s, none) := by
  cases s with
  | mk r l buf esc =>
    simp only at hr hl
    subst hr hl
    simp [processByte]

/-- A non-flag byte arriving while idle right after a flag byte starts a frame. -/
theorem processByte_start (s : RxState) (b : Nat) (hr : s.is_receiving = false)
    (hl : s.last_rx_byte = HDLC_FLAG) (hb : b ≠ HDLC_FLAG) :
    processByte s b =
      ({ is_receiving := true, last_rx_byte := b,
         input_buf := (absorbStep ([HDLC_FLAG], false) b).1,
         xonxoff_escaping := (absorbStep ([HDLC_FLAG], false) b).2 }, none) := by
  simp [processByte, hr, hl, hb, add_to_input_buf_eq]

/-- A non-flag byte arriving in frame is routed to the buffer. -/
theorem processByte_middle (s : RxState) (b : Nat) (hr : s.is_receiving = true)
    (hb : b ≠ HDLC_FLAG) :
    processByte s b =
      ({ is_receiving := true, last_rx_byte := b,
         input_buf := (absorbStep (s.input_buf, s.xonxoff_escaping) b).1,
         xonxoff_escaping := (absorbStep (s.input_buf, s.xonxoff_escaping) b).2 }, none) := by
  simp [processByte, hr, hb, add_to_input_buf_eq]

/-- The flag byte leaves the escape flag clear when routed to the buffer. -/
theorem absorbStep_esc_flag (buf : List Nat) (esc : Bool) :
    (absorbStep (buf, esc) HDLC_FLAG).2 = false := by
  cases esc <;> rfl

/-- A flag byte arriving in frame completes the frame: the buffer takes the
decoded payload when decode succeeds and keeps the raw frame otherwise, and
exactly the decoded payload (if any) is delivered. -/
theorem processByte_endframe (s : RxState) (hr : s.is_receiving = true) :
    processByte s HDLC_FLAG =
      ({ is_receiving := false, last_rx_byte := HDLC_FLAG,
         input_buf :=
           (dehdlcify (absorbStep (s.input_buf, s.xonxoff_escaping) HDLC_FLAG).1).getD
             (absorbStep (s.input_buf, s.xonxoff_escaping) HDLC_FLAG).1,
         xonxoff_escaping := false },
       dehdlcify (absorbStep (s.input_buf, s.xonxoff_escaping) HDLC_FLAG).1) := by
  have h2 := add_to_input_buf_eq { s with is_receiving := false } HDLC_FLAG
  simp only [processByte, hr]
  simp only [h2]
  cases hdec : dehdlcify ((absorbStep (s.input_buf, s.xonxoff_escaping) HDLC_FLAG).1) with
  | none => simp [hdec, absorbStep_esc_flag]
  | some payload => simp [hdec, absorbStep_esc_flag]

/-- Running the loop over a flag-free body while in frame stays in frame,
emits nothing, and folds the body into the buffer through absorption. -/
theorem processStream_inframe (body : List Nat) :
    ∀ (s : RxState), s.is_receiving = true → (∀ b ∈ body, b ≠ HDLC_FLAG) →
      processStream s body =
        ({ is_receiving := true,
           last_rx_byte := body.getLastD s.last_rx_byte,
           input_buf := (List.foldl absorbStep (s.input_buf, s.xonxoff_escaping) body).1,
           xonxoff_escaping := (List.foldl absorbStep (s.input_buf, s.xonxoff_escaping) body).2 },
         []) := by
  induction body with
  | nil =>
    intro s hr hfree
    cases s with
    | mk r l buf esc =>
      simp only at hr
      subst hr
      simp [processStream]
  | cons b rest ih =>
    intro s hr hfree
    have hb : b ≠ HDLC_FLAG := hfree b (by simp)
    simp only [processStream]
    rw [processByte_middle s b hr hb]
    rw [ih _ rfl (fun x hx => hfree x (by simp [hx]))]
    simp only [List.foldl_cons]
    cases rest with
    | nil => simp
    | cons c t =>
      have hsome : (c :: t).getLast?.isSome := List.getLast?_isSome.mpr (by simp)
      obtain ⟨x, hx⟩ := Option.isSome_iff_exists.mp hsome
      simp [hx]

/-- Running the loop over one unterminated wire frame `body ++ [flag]` from an
idle state whose previous byte is the flag: the loop assembles the frame through
absorption, attempts the decode, emits exactly the decoded payload when decode
succeeds and nothing otherwise, and returns to idle with the previous byte equal
to the flag. -/
theorem processStream_chunk (body : List Nat) (hne : body ≠ [])
    (hfree : ∀ b ∈ body, b ≠ HDLC_FLAG) (s : RxState) (hr : s.is_receiving = false)
    (hl : s.last_rx_byte = HDLC_FLAG) :
    processStream s (body ++ [HDLC_FLAG]) =
      ({ is_receiving := false, last_rx_byte := HDLC_FLAG,
         input_buf := (dehdlcify (assembledFrame body)).getD (assembledFrame body),
         xonxoff_escaping := false },
       (dehdlcify (assembledFrame body)).toList) := by
  cases body with
  | nil => exact absurd rfl hne
  | cons b rest =>
    have hb : b ≠ HDLC_FLAG := hfree b (by simp)
    have hrest : ∀ x ∈ rest, x ≠ HDLC_FLAG := fun x hx => hfree x (by simp [hx])
    simp only [List.cons_append, processStream]
    rw [processByte_start s b hr hl hb]
    have happ : rest.append [HDLC_FLAG] = rest ++ [HDLC_FLAG] := rfl
    rw [happ, processStream_append]
    rw [processStream_inframe rest _ rfl hrest]
    simp only [processStream]
    rw [processByte_endframe _ rfl]
    simp only [assembledFrame, List.cons_append, List.foldl_cons, List.foldl_append,
      List.foldl_nil]
    simp [processStream]

/-- Running the loop over one full wire frame from an idle state whose previous
byte is the flag: the leading flag is absorbed as an idempotent flag run and the
rest behaves as `processStream_chunk`. -/
theorem processStream_wire (body : List Nat) (hne : body ≠ [])
    (hfree : ∀ b ∈ body, b ≠ HDLC_FLAG) (s : RxState) (hr : s.is_receiving = false)
    (hl : s.last_rx_byte = HDLC_FLAG) :
    processStream s (wire body) =
      ({ is_receiving := false, last_rx_byte := HDLC_FLAG,
         input_buf := (dehdlcify (assembledFrame body)).getD (assembledFrame body),
         xonxoff_escaping := false },
       (dehdlcify (assembledFrame body)).toList) := by
  simp only [wire, processStream]
  rw [processByte_flag_noop s hr hl]
  rw [processStream_chunk body hne hfree s hr hl]
  simp

/-- C1: for every byte stream made of a validly stuffed wire frame, then a
corrupted wire frame (stuffing violated, so the codec's decode faults on the
assembled bytes), then another validly stuffed wire frame, the acquisition loop
of `MoteProbe.run` delivers exactly the two decoded frames to the parser, in
wire order; the corrupted frame is discarded and assembly resynchronizes on the
next flag byte. -/
theorem moteprobe_resync (b1 b2 b3 p1 p3 : List Nat)
    (h1ne : b1 ≠ []) (h1f : ∀ b ∈ b1, b ≠ HDLC_FLAG)
    (hd1 : dehdlcify (assembledFrame b1) = some p1)
    (h2ne : b2 ≠ []) (h2f : ∀ b ∈ b2, b ≠ HDLC_FLAG)
    (hd2 : dehdlcify (assembledFrame b2) = none)
    (h3ne : b3 ≠ []) (h3f : ∀ b ∈ b3, b ≠ HDLC_FLAG)
    (hd3 : dehdlcify (assembledFrame b3) = some p3) :
    (processStream initState (wire b1 ++ wire b2 ++ wire b3)).2 = [p1, p3] := by
  rw [processStream_append, processStream_append]
  rw [processStream_wire b1 h1ne h1f initState rfl rfl]
  rw [processStream_wire b2 h2ne h2f _ rfl rfl]
  rw [processStream_wire b3 h3ne h3f _ rfl rfl]
  simp [hd1, hd2, hd3]

/-- Witness for `moteprobe_resync`: a concrete valid frame, a frame with a
dangling stuffing escape, and another valid frame. -/
theorem moteprobe_resync_witness :
    (processStream initState (wire [1] ++ wire [HDLC_ESCAPE] ++ wire [2])).2 = [[1], [2]] :=
  moteprobe_resync [1] [HDLC_ESCAPE] [2] [1] [2] (by decide) (by decide) (by decide)
    (by decide) (by decide) (by decide) (by decide) (by decide) (by decide)

/-- C2 counterexample: in state Idle with previous byte FLAG, the escape byte
0x12 does transition the machine to InFrame, but the buffer is reset to the
FLAG alone — the consumed byte is absorbed by escape handling and is not in the
buffer, contradicting "the buffer reset to FLAG followed by that byte". -/
theorem frame_sm_start_buffer_cex :
    (processByte initState 0x12).1.is_receiving = true ∧
      (processByte initState 0x12).1.input_buf = [HDLC_FLAG] ∧
      (processByte initState 0x12).1.input_buf ≠ [HDLC_FLAG, 0x12] := by
  decide

/-- C2 amended: in state Idle with byte FLAG and previous byte FLAG the machine
stays put entirely; in state Idle with a non-FLAG byte and previous byte FLAG it
transitions to InFrame with the escape flag cleared and the buffer reset to the
FLAG followed by that byte routed through flow-control absorption (so the buffer
is exactly FLAG followed by the byte whenever the byte is not one of the three
reserved control bytes); and the previous byte is updated to the consumed byte
unconditionally, in every case of the dispatch. -/
theorem frame_sm_transitions (s : RxState) (b : Nat) :
    (s.is_receiving = false → s.last_rx_byte = HDLC_FLAG → b = HDLC_FLAG →
      processByte s b = (s, none)) ∧
    (s.is_receiving = false → s.last_rx_byte = HDLC_FLAG → b ≠ HDLC_FLAG →
      processByte s b =
        ({ is_receiving := true, last_rx_byte := b,
           input_buf := (absorbStep ([HDLC_FLAG], false) b).1,
           xonxoff_escaping := (absorbStep ([HDLC_FLAG], false) b).2 }, none)) ∧
    (b ≠ XON → b ≠ XOFF → b ≠ XONXOFF_ESCAPE →
      (absorbStep ([HDLC_FLAG], false) b).1 = [HDLC_FLAG, b]) ∧
    (processByte s b).1.last_rx_byte = b := by
  refine ⟨?_, ?_, ?_, ?_⟩
  · intro hr hl hb
    subst hb
    exact processByte_flag_noop s hr hl
  · intro hr hl hb
    exact processByte_start s b hr hl hb
  · intro h1 h2 h3
    simp [absorbStep, h1, h2, h3]
  · simp [processByte]

/-- Witness for `frame_sm_transitions` at concrete inputs. -/
theorem frame_sm_transitions_witness :
    processByte initState HDLC_FLAG = (initState, none) ∧
      (absorbStep ([HDLC_FLAG], false) 0x41).1 = [HDLC_FLAG, 0x41] ∧
      (processByte initState 0x41).1.last_rx_byte = 0x41 :=
  ⟨(frame_sm_transitions initState HDLC_FLAG).1 rfl rfl rfl,
   (frame_sm_transitions initState 0x41).2.2.1 (by decide) (by decide) (by decide),
   (frame_sm_transitions initState 0x41).2.2.2⟩

/-- C3 counterexample: the code does not apply flow-control absorption before
the frame-assembly state machine sees a byte.  On the single-byte stream
consisting of the escape byte 0x12, the code's state machine dispatches on the
raw byte and starts a frame, while the pipeline that absorbs each byte first
(the spec's wording) absorbs the byte before the machine sees anything and
stays Idle. -/
theorem absorb_order_cex :
    (processStream initState [0x12]).1.is_receiving = true ∧
      (specProcessStream specInitState [0x12]).1.is_receiving = false := by
  decide

/-- C3 amended: flow-control absorption is applied at buffer-append time,
inside the state machine's append operation (after the flag-based dispatch on
the raw byte): for each byte routed to the buffer, the reserved escape byte
0x12 is never appended and only arms the escape flag; an escaped byte is XORed
with the mask 0x10 and appended; XON (0x11) and XOFF (0x13) are discarded only
when not already escaped; every other byte is appended unchanged.  Stated as:
`_add_to_input_buf` appends exactly the byte emitted by the declarative
per-byte absorption semantics and updates the escape flag accordingly. -/
theorem add_to_input_buf_absorbs (s : RxState) (b : Nat) :
    add_to_input_buf s b =
      { s with input_buf := s.input_buf ++ (absorbEmit s.xonxoff_escaping b).1.toList,
               xonxoff_escaping := (absorbEmit s.xonxoff_escaping b).2 } := by
  cases s with
  | mk r l buf esc =>
    cases esc <;>
      · simp only [add_to_input_buf, absorbEmit]
        split_ifs <;> simp_all

/-- C4 counterexample: after a complete frame the machine is Idle but the
buffer is not empty — the code stores the decoded payload back into
`input_buf`, so the buffer is non-empty while not InFrame. -/
theorem frame_state_invariant_cex :
    (processStream initState [1, HDLC_FLAG]).1.is_receiving = false ∧
      (processStream initState [1, HDLC_FLAG]).1.input_buf = [1] := by
  decide

/-- Single-step preservation: the escape flag implies InFrame, InFrame implies
a non-empty buffer, and the escape flag can only be armed by the escape byte
just consumed. -/
theorem processByte_inv (s : RxState) (b : Nat)
    (h1 : s.xonxoff_escaping = true → s.is_receiving = true)
    (h2 : s.is_receiving = true → s.input_buf ≠ []) :
    ((processByte s b).1.xonxoff_escaping = true → (processByte s b).1.is_receiving = true) ∧
      ((processByte s b).1.is_receiving = true → (processByte s b).1.input_buf ≠ []) ∧
      ((processByte s b).1.xonxoff_escaping = true → b = XONXOFF_ESCAPE) := by
  by_cases hstart : s.is_receiving = false ∧ s.last_rx_byte = HDLC_FLAG ∧ b ≠ HDLC_FLAG
  · rw [processByte_start s b hstart.1 hstart.2.1 hstart.2.2]
    by_cases hb : b = XONXOFF_ESCAPE
    · subst hb
      refine ⟨fun _ => rfl, fun _ => ?_, fun _ => rfl⟩
      simp [absorbStep]
    · refine ⟨fun _ => rfl, fun _ => ?_, fun h => ?_⟩
      · simp only [absorbStep]
        split_ifs <;> simp
      · exfalso
        revert h
        simp [absorbStep, hb]
        split_ifs <;> simp
  · by_cases hrecv : s.is_receiving = true
    · by_cases hb : b = HDLC_FLAG
      · subst hb
        rw [processByte_endframe s hrecv]
        exact ⟨by simp, by simp, by simp⟩
      · rw [processByte_middle s b hrecv hb]
        by_cases hesc : b = XONXOFF_ESCAPE
        · subst hesc
          exact ⟨fun _ => rfl, fun _ => by simp [absorbStep, h2 hrecv], fun _ => rfl⟩
        · refine ⟨fun _ => rfl, fun _ => ?_, fun h => ?_⟩
          · simp only [absorbStep]
            split_ifs <;> simp [h2 hrecv]
          · exfalso
            revert h
            simp [absorbStep, hesc]
            split_ifs <;> simp_all
    · have hr : s.is_receiving = false := by simpa using hrecv
      have hnoop : processByte s b = ({ s with last_rx_byte := b }, none) := by
        simp only [processByte]
        rw [if_neg hstart, if_neg (by simp [hr]), if_neg (by simp [hr])]
      rw [hnoop]
      have hesc : s.xonxoff_escaping = false := by
        cases hx : s.xonxoff_escaping with
        | false => rfl
        | true => exact absurd (h1 hx) hrecv
      exact ⟨fun h => by simp_all, fun h => by simp_all, fun h => by simp_all⟩

/-- Stream-level preservation of the receive-state invariant, generalized over
the start state. -/
theorem processStream_inv (stream : List Nat) :
    ∀ (s : RxState),
      (s.xonxoff_escaping = true → s.is_receiving = true) →
      (s.is_receiving = true → s.input_buf ≠ []) →
      (((processStream s stream).1.xonxoff_escaping = true →
          (processStream s stream).1.is_receiving = true) ∧
        ((processStream s stream).1.is_receiving = true →
          (processStream s stream).1.input_buf ≠ []) ∧
        ((processStream s stream).1.xonxoff_escaping = true →
          stream.getLast? = some XONXOFF_ESCAPE ∨
            (stream = [] ∧ s.xonxoff_escaping = true))) := by
  induction stream with
  | nil =>
    intro s h1 h2
    exact ⟨h1, h2, fun h => Or.inr ⟨rfl, h⟩⟩
  | cons b rest ih =>
    intro s h1 h2
    obtain ⟨g1, g2, g3⟩ := processByte_inv s b h1 h2
    obtain ⟨k1, k2, k3⟩ := ih (processByte s b).1 g1 g2
    have hps : (processStream s (b :: rest)).1 = (processStream (processByte s b).1 rest).1 := rfl
    rw [hps]
    refine ⟨k1, k2, fun h => ?_⟩
    rcases k3 h with hlast | ⟨hnil, hesc⟩
    · left
      cases rest with
      | nil => simp at hlast
      | cons c t => simpa [List.getLast?_cons_cons] using hlast
    · subst hnil
      left
      have hb := g3 hesc
      subst hb
      simp

/-- C4 amended: after processing every byte of every input stream, the escape
flag is armed only while InFrame (so it never survives a frame boundary), the
buffer is non-empty whenever the machine is InFrame, and the escape flag is
armed only when the very last consumed byte was the escape byte — the flag set
for a byte is cleared by the next consumed byte unless that byte is itself an
escape byte, which re-arms it.  While Idle the buffer is not always empty: it
retains the last completed frame's decoded payload (or its raw bytes on a
decode fault) until the next frame starts. -/
theorem frame_state_invariant_amended (stream : List Nat) :
    ((processStream initState stream).1.xonxoff_escaping = true →
      (processStream initState stream).1.is_receiving = true) ∧
    ((processStream initState stream).1.is_receiving = true →
      (processStream initState stream).1.input_buf ≠ []) ∧
    ((processStream initState stream).1.xonxoff_escaping = true →
      stream.getLast? = some XONXOFF_ESCAPE) := by
  obtain ⟨g1, g2, g3⟩ :=
    processStream_inv stream initState (by simp [initState]) (by simp [initState])
  refine ⟨g1, g2, fun h => ?_⟩
  rcases g3 h with h' | ⟨hnil, hesc⟩
  · exact h'
  · exact absurd hesc (by simp [initState])

/-- Witness for `frame_state_invariant_amended` on a stream ending in the
escape byte mid-frame. -/
theorem frame_state_invariant_amended_witness :
    (processStream initState [1, XONXOFF_ESCAPE]).1.is_receiving = true ∧
      List.getLast? [1, XONXOFF_ESCAPE] = some XONXOFF_ESCAPE :=
  ⟨(frame_state_invariant_amended [1, XONXOFF_ESCAPE]).1 (by decide),
   (frame_state_invariant_amended [1, XONXOFF_ESCAPE]).2.2 (by decide)⟩

/-- When the write-retry loop of `_send_data` exits, the accumulated
`bytes_written` equals the full encoded length, and every effect it performed
was a write of the whole encoded frame. -/
theorem writeLoop_complete (data : List Nat) :
    ∀ (oracle : List Nat) (w : Nat) (effs : List SendEffect) (w2 : Nat),
      writeLoop data w oracle = some (effs, w2) →
      w2 = data.length ∧ ∀ e ∈ effs, e = SendEffect.serialWrite data := by
  intro oracle
  induction oracle with
  | nil =>
    intro w effs w2 h
    simp only [writeLoop] at h
    split_ifs at h with hw
    · rw [Option.some.injEq, Prod.mk.injEq] at h
      obtain ⟨h1, h2⟩ := h
      subst h1
      subst h2
      exact ⟨hw, by simp⟩
  | cons r rest ih =>
    intro w effs w2 h
    simp only [writeLoop] at h
    split_ifs at h with hw
    · rw [Option.some.injEq, Prod.mk.injEq] at h
      obtain ⟨h1, h2⟩ := h
      subst h1
      subst h2
      exact ⟨hw, by simp⟩
    · cases hrec : writeLoop data (w + r) rest with
      | none =>
        rw [hrec] at h
        exact absurd h (by simp)
      | some pr =>
        obtain ⟨effs2, w3⟩ := pr
        rw [hrec] at h
        rw [Option.some.injEq, Prod.mk.injEq] at h
        obtain ⟨h1, h2⟩ := h
        subst h2
        obtain ⟨ha, hb⟩ := ih (w + r) effs2 w3 hrec
        refine ⟨ha, ?_⟩
        intro e hee
        rw [← h1] at hee
        rcases List.mem_cons.mp hee with h3 | h4
        · exact h3
        · exact hb e h4

/-- C5 counterexample: in IoT-lab mode `_send_data` returns immediately — the
call completes with no publish, no flush, no write and zero bytes transmitted,
although the encoded frame for payload [1] is 3 bytes long; the codec's encode
operation is not even applied. -/
theorem send_data_iotlab_cex :
    send_data MoteModes.MODE_IOTLAB "x" [1] [] = some ([], 0) ∧
      (hdlcify [1]).length = 3 :=
  ⟨rfl, by decide⟩

/-- C5 amended: `_send_data` first aborts with no transmission at all on the
IoT-lab transport; on every other transport it applies the codec's encode
operation, then: the testbed transport publishes the encoded bytes as a JSON
object with token 123 to the per-mote command topic; the serial and emulated
transports write the encoded frame, retrying partial writes until the
accumulated count reaches the full encoded length, and the serial transport
additionally flushes pending output once before the write loop. -/
theorem send_data_amended (eui64 : String) (data : List Nat) (oracle : List Nat) :
    send_data MoteModes.MODE_IOTLAB eui64 data oracle = some ([], 0) ∧
    send_data MoteModes.MODE_TESTBED eui64 data oracle =
      some ([SendEffect.mqttPublish
              ("opentestbed/deviceType/mote/deviceId/" ++ eui64 ++ "/cmd/tomoteserialbytes")
              123 (hdlcify data)], 0) ∧
    (∀ effs w, send_data MoteModes.MODE_SERIAL eui64 data oracle = some (effs, w) →
      w = (hdlcify data).length ∧ effs.head? = some SendEffect.serialFlush ∧
        ∀ e ∈ effs.tail, e = SendEffect.serialWrite (hdlcify data)) ∧
    (∀ effs w, send_data MoteModes.MODE_EMULATED eui64 data oracle = some (effs, w) →
      w = (hdlcify data).length ∧ ∀ e ∈ effs, e = SendEffect.serialWrite (hdlcify data)) := by
  refine ⟨rfl, rfl, ?_, ?_⟩
  · intro effs w h
    simp only [send_data] at h
    cases hl : writeLoop (hdlcify data) 0 oracle with
    | none => rw [hl] at h; exact absurd h (by simp)
    | some pr =>
      rw [hl] at h
      obtain ⟨effs2, w3⟩ := pr
      simp only [Option.some.injEq, Prod.mk.injEq] at h
      obtain ⟨ha, hb⟩ := writeLoop_complete (hdlcify data) oracle 0 effs2 w3 hl
      obtain ⟨he, hw⟩ := h
      subst hw
      refine ⟨ha, by simp [← he], ?_⟩
      intro e hee
      rw [← he] at hee
      exact hb e (by simpa using hee)
  · intro effs w h
    simp only [send_data] at h
    cases hl : writeLoop (hdlcify data) 0 oracle with
    | none => rw [hl] at h; exact absurd h (by simp)
    | some pr =>
      rw [hl] at h
      obtain ⟨effs2, w3⟩ := pr
      simp only [Option.some.injEq, Prod.mk.injEq] at h
      obtain ⟨ha, hb⟩ := writeLoop_complete (hdlcify data) oracle 0 effs2 w3 hl
      obtain ⟨he, hw⟩ := h
      subst hw
      refine ⟨ha, ?_⟩
      intro e hee
      rw [← he] at hee
      exact hb e hee

/-- Witness for `send_data_amended`: a serial send whose single write reports
the full encoded length. -/
theorem send_data_amended_witness :
    (3 : Nat) = (hdlcify [1]).length ∧
      List.head? [SendEffect.serialFlush, SendEffect.serialWrite (hdlcify [1])] =
        some SendEffect.serialFlush ∧
      ∀ e ∈ List.tail [SendEffect.serialFlush, SendEffect.serialWrite (hdlcify [1])],
        e = SendEffect.serialWrite (hdlcify [1]) :=
  (send_data_amended "a" [1] [3]).2.2.1
    [SendEffect.serialFlush, SendEffect.serialWrite (hdlcify [1])] 3 rfl

/-- The "all" walk raises no fault exactly when every mote is unpowered. -/
theorem bootAll_ok (motes : List SimMote) :
    (bootAll motes).2 = none ↔ ∀ m ∈ motes, m.mote_on = false := by
  induction motes with
  | nil => simp [bootAll]
  | cons m rest ih =>
    simp only [bootAll, List.forall_mem_cons]
    split_ifs with hm
    · simpa [hm] using ih
    · simp [hm]

/-- The per-address walk raises no fault exactly when every mote matching the
address is unpowered. -/
theorem bootAddr_ok (n : Nat) (motes : List SimMote) :
    (bootAddr n motes).2 = none ↔ ∀ m ∈ motes, m.id = n → m.mote_on = false := by
  induction motes with
  | nil => simp [bootAddr]
  | cons m rest ih =>
    simp only [bootAddr, List.forall_mem_cons]
    split_ifs with hid hm
    · rw [ih]
      simp [hm]
    · simp [hid.symm, hm]
    · rw [ih]
      have hne : m.id ≠ n := fun h => hid h.symm
      simp [hne]

/-- The address loop raises no fault exactly when every address is numeric and
every mote matching it is unpowered. -/
theorem bootAddrs_ok (motes : List SimMote) (addrs : List RpcAddr) :
    (bootAddrs motes addrs).2 = none ↔
      ∀ a ∈ addrs, ∃ k, a = RpcAddr.num k ∧
        ∀ m ∈ motes, m.id = k → m.mote_on = false := by
  induction addrs with
  | nil => simp [bootAddrs]
  | cons a rest ih =>
    cases a with
    | allLit => simp [bootAddrs, List.forall_mem_cons]
    | malformed => simp [bootAddrs, List.forall_mem_cons]
    | num n =>
      simp only [bootAddrs, List.forall_mem_cons]
      cases hf : (bootAddr n motes).2 with
      | some msg =>
        have hnot : ¬ ∀ m ∈ motes, m.id = n → m.mote_on = false := by
          rw [← bootAddr_ok, hf]
          simp
        simp [hf, hnot]
      | none =>
        have hyes : ∀ m ∈ motes, m.id = n → m.mote_on = false :=
          (bootAddr_ok n motes).mp hf
        simp only [hf]
        rw [ih]
        simp
        intro _
        exact hyes

/-- A numeric address that matches no mote is silently skipped: the walk ends
with no effect and no fault. -/
theorem bootAddr_unknown (n : Nat) (motes : List SimMote)
    (h : ∀ m ∈ motes, m.id ≠ n) : bootAddr n motes = ([], none) := by
  induction motes with
  | nil => simp [bootAddr]
  | cons m rest ih =>
    have hne : ¬ n = m.id := fun hc => h m (by simp) hc.symm
    simp only [bootAddr]
    rw [if_neg hne]
    exact ih (fun x hx => h x (by simp [hx]))

/-- Every effect of the "all" walk is a power-on scheduling. -/
theorem bootAll_effects (motes : List SimMote) :
    ∀ e ∈ (bootAll motes).1, ∃ i, e = BootEffect.schedule i := by
  induction motes with
  | nil => simp [bootAll]
  | cons m rest ih =>
    intro e he
    simp only [bootAll] at he
    split_ifs at he with hm
    · rcases List.mem_cons.mp he with h1 | h2
      · exact ⟨m.id, h1⟩
      · exact ih e h2
    · simp at he

/-- Every effect of a per-address walk is a power-on scheduling. -/
theorem bootAddr_effects (n : Nat) (motes : List SimMote) :
    ∀ e ∈ (bootAddr n motes).1, ∃ i, e = BootEffect.schedule i := by
  induction motes with
  | nil => simp [bootAddr]
  | cons m rest ih =>
    intro e he
    simp only [bootAddr] at he
    split_ifs at he with hid hm
    · rcases List.mem_cons.mp he with h1 | h2
      · exact ⟨m.id, h1⟩
      · exact ih e h2
    · simp at he
    · exact ih e he

/-- Every effect of the address loop is a power-on scheduling. -/
theorem bootAddrs_effects (motes : List SimMote) (addrs : List RpcAddr) :
    ∀ e ∈ (bootAddrs motes addrs).1, ∃ i, e = BootEffect.schedule i := by
  induction addrs with
  | nil => simp [bootAddrs]
  | cons a rest ih =>
    cases a with
    | allLit => simp [bootAddrs]
    | malformed => simp [bootAddrs]
    | num n =>
      intro e he
      simp only [bootAddrs] at he
      cases hf : (bootAddr n motes).2 with
      | some msg =>
        rw [hf] at he
        exact bootAddr_effects n motes e he
      | none =>
        rw [hf] at he
        rcases List.mem_append.mp he with h1 | h2
        · exact bootAddr_effects n motes e h1
        · exact ih e h2

/-- C6 counterexample: in simulated mode with a single mote of id 1 (unpowered),
booting the unknown address 2 returns True and schedules nothing — the unknown
address is silently ignored rather than faulted. -/
theorem boot_motes_unknown_addr_cex :
    boot_motes true [⟨1, false⟩] [RpcAddr.num 2] =
      ([BootEffect.pause, BootEffect.resume], Except.ok true) := rfl

/-- C6 amended: `boot_motes` faults with "not supported" outside simulated
mode; in simulated mode it returns True exactly when either the request is
["all"] and every mote is unpowered, or every given address parses as an
integer and every mote matching a given address is unpowered.  A non-numeric
address faults ("Invalid mote address") and a matched powered mote faults
("Mote already booted."), but a numeric address matching no mote is silently
skipped, contributing no fault and no effect. -/
theorem boot_motes_amended (motes : List SimMote) (addrs : List RpcAddr) :
    boot_motes false motes addrs =
      ([], Except.error "Method not supported on real hardware") ∧
    ((boot_motes true motes addrs).2 = Except.ok true ↔
      (if addrs = [RpcAddr.allLit] then ∀ m ∈ motes, m.mote_on = false
       else ∀ a ∈ addrs, ∃ k, a = RpcAddr.num k ∧
         ∀ m ∈ motes, m.id = k → m.mote_on = false)) ∧
    (∀ n, (∀ m ∈ motes, m.id ≠ n) → bootAddr n motes = ([], none)) := by
  refine ⟨rfl, ?_, fun n h => bootAddr_unknown n motes h⟩
  have hcond : (addrs.length = 1 ∧ addrs.head? = some RpcAddr.allLit) ↔
      addrs = [RpcAddr.allLit] := by
    cases addrs with
    | nil => simp
    | cons a t =>
      cases t with
      | nil => simp [List.length, List.head?, eq_comm]
      | cons b t2 => simp
  by_cases hall : addrs = [RpcAddr.allLit]
  · rw [if_pos hall]
    rw [← bootAll_ok]
    simp only [boot_motes, if_true, hcond.mpr hall, and_self, if_pos (hcond.mpr hall)]
    cases hb : (bootAll motes).2 with
    | some msg => simp [hb]
    | none => simp [hb]
  · rw [if_neg hall]
    rw [← bootAddrs_ok motes addrs]
    have hnc : ¬ (addrs.length = 1 ∧ addrs.head? = some RpcAddr.allLit) :=
      fun hc => hall (hcond.mp hc)
    simp only [boot_motes, if_true, if_neg hnc]
    cases hb : (bootAddrs motes addrs).2 with
    | some msg => simp [hb]
    | none => simp [hb]

/-- Witness for `boot_motes_amended`: address 2 matches no mote of the
single-mote population with id 1 and is skipped. -/
theorem boot_motes_amended_witness :
    bootAddr 2 [⟨1, false⟩] = ([], none) :=
  (boot_motes_amended [⟨1, false⟩] []).2.2 2 (by decide)

/-- C7 counterexample: in simulated mode, booting ["all"] when the only mote is
already powered pauses the clock and then faults — the clock is never resumed,
so the resume count is 0, not 1. -/
theorem boot_motes_resume_skipped_cex :
    boot_motes true [⟨1, true⟩] [RpcAddr.allLit] =
      ([BootEffect.pause], Except.error "Mote already booted.") ∧
      BootEffect.resume ∉ [BootEffect.pause] :=
  ⟨rfl, by decide⟩

/-- C7 amended: in simulated mode every power-on scheduling of a `boot_motes`
call happens strictly between the single leading clock pause and (on success)
the single trailing clock resume; when the call returns True the clock is
resumed exactly once, as the last action; when the call faults the clock is
paused and every performed scheduling follows the pause, but the clock is never
resumed — the fault propagates before the resume call. -/
theorem boot_motes_clock_amended (motes : List SimMote) (addrs : List RpcAddr) :
    (∀ effs, boot_motes true motes addrs = (effs, Except.ok true) →
      ∃ mid, effs = BootEffect.pause :: (mid ++ [BootEffect.resume]) ∧
        ∀ e ∈ mid, ∃ i, e = BootEffect.schedule i) ∧
    (∀ effs msg, boot_motes true motes addrs = (effs, Except.error msg) →
      ∃ mid, effs = BootEffect.pause :: mid ∧
        (∀ e ∈ mid, ∃ i, e = BootEffect.schedule i) ∧
        BootEffect.resume ∉ effs) := by
  have heff : ∀ e ∈ (if addrs.length = 1 ∧ addrs.head? = some RpcAddr.allLit
      then bootAll motes else bootAddrs motes addrs).1, ∃ i, e = BootEffect.schedule i := by
    split_ifs
    · exact bootAll_effects motes
    · exact bootAddrs_effects motes addrs
  constructor
  · intro effs h
    simp only [boot_motes, if_true] at h
    cases hf : (if addrs.length = 1 ∧ addrs.head? = some RpcAddr.allLit
        then bootAll motes else bootAddrs motes addrs).2 with
    | some msg =>
      rw [hf] at h
      simp at h
    | none =>
      rw [hf] at h
      rw [Prod.mk.injEq] at h
      refine ⟨_, h.1.symm, heff⟩
  · intro effs msg h
    simp only [boot_motes, if_true] at h
    cases hf : (if addrs.length = 1 ∧ addrs.head? = some RpcAddr.allLit
        then bootAll motes else bootAddrs motes addrs).2 with
    | some msg2 =>
      rw [hf] at h
      rw [Prod.mk.injEq] at h
      refine ⟨_, h.1.symm, heff, ?_⟩
      rw [← h.1]
      intro hmem
      rcases List.mem_cons.mp hmem with h1 | h2
      · exact BootEffect.noConfusion h1
      · obtain ⟨i, hi⟩ := heff _ h2
        exact BootEffect.noConfusion hi
    | none =>
      rw [hf] at h
      simp at h

/-- Witness for `boot_motes_clock_amended`: a successful single-mote boot whose
trace is exactly pause, schedule, resume. -/
theorem boot_motes_clock_amended_witness :
    ∃ mid, [BootEffect.pause, BootEffect.schedule 1, BootEffect.resume] =
        BootEffect.pause :: (mid ++ [BootEffect.resume]) ∧
      ∀ e ∈ mid, ∃ i, e = BootEffect.schedule i :=
  (boot_motes_clock_amended [⟨1, false⟩] [RpcAddr.allLit]).1
    [BootEffect.pause, BootEffect.schedule 1, BootEffect.resume] rfl

/-- C8 evaluation at the failing input: a candidate port whose transport open
raises makes the whole scan spin forever in the `hasattr` busy-wait (the open
runs on the probe thread, whose exception handler exits the thread without
setting the attribute), so the port is neither skipped with a warning nor
released and the remaining candidate is never probed; the same good candidate
alone is accepted at its echoing baud rate and its transient probe released. -/
theorem find_serial_ports_open_error_hangs :
    find_serial_ports_scan [115200]
        [⟨"ttyUSB0", false, fun _ => true⟩, ⟨"ttyUSB1", true, fun _ => true⟩] = none ∧
      find_serial_ports_scan [115200] [⟨"ttyUSB1", true, fun _ => true⟩] =
        some ([("ttyUSB1", 115200)], ["ttyUSB1"]) :=
  ⟨rfl, rfl⟩

/-- C9: the testbed inbound queue is bounded at capacity 10; an inbound MQTT
message arriving while the queue is full is dropped with the "queue overflow"
warning and the queue unchanged, the callback returning normally (the
non-blocking put and the bare except never block it nor tear the probe down);
a message arriving while the queue has room is enqueued at the tail. -/
theorem testbed_queue_overflow_spec :
    serialbytes_queue_maxsize = 10 ∧
    (∀ (q : List (List Nat)) (sb : List Nat), serialbytes_queue_maxsize ≤ q.length →
      on_mqtt_message q (some sb) = (q, some "queue overflow")) ∧
    (∀ (q : List (List Nat)) (sb : List Nat), q.length < serialbytes_queue_maxsize →
      on_mqtt_message q (some sb) = (q ++ [sb], none)) := by
  refine ⟨rfl, ?_, ?_⟩
  · intro q sb h
    simp [on_mqtt_message, queue_put_nowait, Nat.not_lt.mpr h]
  · intro q sb h
    simp [on_mqtt_message, queue_put_nowait, h]

/-- Witness for `testbed_queue_overflow_spec` on a full queue of 10 items. -/
theorem testbed_queue_overflow_spec_witness :
    on_mqtt_message (List.replicate 10 []) (some [1]) =
      (List.replicate 10 [], some "queue overflow") :=
  testbed_queue_overflow_spec.2.1 (List.replicate 10 []) [1] (by decide)

/-- C10: the `MoteProbe` constructor binds the mode matching the single
provided transport argument, raises `SystemError` when none is provided, and
fails an assertion whenever two or more are provided — no combination is
silently accepted. -/
theorem moteprobe_init_mode_spec :
    moteprobe_init_mode true false false false = InitOutcome.bound MoteModes.MODE_SERIAL ∧
    moteprobe_init_mode false true false false = InitOutcome.bound MoteModes.MODE_EMULATED ∧
    moteprobe_init_mode false false true false = InitOutcome.bound MoteModes.MODE_IOTLAB ∧
    moteprobe_init_mode false false false true = InitOutcome.bound MoteModes.MODE_TESTBED ∧
    moteprobe_init_mode false false false false = InitOutcome.systemError ∧
    ∀ sp em il tb : Bool, 2 ≤ numProvided sp em il tb →
      moteprobe_init_mode sp em il tb = InitOutcome.assertionError := by
  refine ⟨rfl, rfl, rfl, rfl, rfl, ?_⟩
  decide

/-- Witness for `moteprobe_init_mode_spec`: two transport arguments at once
fail the assertion. -/
theorem moteprobe_init_mode_spec_witness :
    moteprobe_init_mode true true false false = InitOutcome.assertionError :=
  moteprobe_init_mode_spec.2.2.2.2.2 true true false false (by decide)
